import Mathlib

/-!
Verification development for the chat-backend job relay server.

The source is a Node/Express + ws server in three variants:
`src/unnamed/part_001` (the richer variant: `/start`, `/external-start`,
`scheduleTimeout`, subscribe snapshot, explicit signature length guard),
and `src/server.js` / `src/unnamed/part_000` (a simpler variant whose
callback handler arms its own timer and whose signature check calls
`crypto.timingSafeEqual` without a length guard).

The JavaScript `Map`s (`jobs`, `subs`, `meta`, and the set of live
websocket clients) are embedded as association lists; JS `Set`s as
duplicate-free lists; `setTimeout`/`clearTimeout` as an explicit table of
pending one-shot timers keyed by timer id.  `nowISO()` timestamps are
opaque strings passed in by the caller of each operation, exactly where
the source calls `new Date().toISOString()`.
-/

namespace ChatBackend

/-! ## Association-list maps (the JS `Map`s) -/

/-- `Map.get`: first binding of `k`, if any. -/
def aget {κ α : Type} [DecidableEq κ] (m : List (κ × α)) (k : κ) : Option α :=
  match m with
  | [] => none
  | (k1, v) :: rest => if k1 = k then some v else aget rest k

/-- `Map.set`: replace the binding of `k`, or append a fresh one. -/
def aset {κ α : Type} [DecidableEq κ] (m : List (κ × α)) (k : κ) (v : α) :
    List (κ × α) :=
  match m with
  | [] => [(k, v)]
  | (k1, v1) :: rest => if k1 = k then (k, v) :: rest else (k1, v1) :: aset rest k v

/-- `Map.delete`: drop every binding of `k`. -/
def aerase {κ α : Type} [DecidableEq κ] (m : List (κ × α)) (k : κ) :
    List (κ × α) :=
  match m with
  | [] => []
  | (k1, v1) :: rest => if k1 = k then aerase rest k else (k1, v1) :: aerase rest k

/-- `Set.add`: append if absent (JS sets keep insertion order). -/
def sinsert {α : Type} [DecidableEq α] (x : α) (l : List α) : List α :=
  if x ∈ l then l else l ++ [x]

/-! ## Base data types -/

/-- JS truthiness on an optional string field: `undefined`, `null` and
the empty string are falsy. -/
def truthyStr : Option String → Option String
  | none => none
  | some s => if s = "" then none else some s

/-- The JSON body of `POST /callbacks/fireworks` as destructured by
part_001 line 168 (`const { request_id, status, response } = req.body`),
plus the `shared_secret` field read by the no-header fallback.  The
source allows `response` to be any JSON value; the claims only need the
string case, so the field is an optional string and the "whole body"
fallback (`response || req.body`) is represented by `RespVal.obj`. -/
structure CallbackPayload where
  request_id : Option String
  status : Option String
  response : Option String
  shared_secret : Option String
deriving Repr, DecidableEq

/-- The value stored in a job record's `response` field: `null`, a string
from the payload's `response` field, or the whole request body
(`job.response = response || req.body`, part_001 line 177). -/
inductive RespVal where
  | null
  | str (s : String)
  | obj (p : CallbackPayload)
deriving Repr, DecidableEq

/-- JS truthiness of a stored response value. -/
def truthyResp : RespVal → Bool
  | RespVal.null => false
  | RespVal.str v => decide (v ≠ "")
  | RespVal.obj _ => true

/-- `j.response || null` (part_001 line 90). -/
def respOrNull (r : RespVal) : RespVal :=
  if truthyResp r then r else RespVal.null

/-- A job record of the part_001 variant:
`{ request_id, status, response, createdAt, updatedAt, timeoutId }`. -/
structure Job where
  request_id : String
  status : String
  response : RespVal
  createdAt : String
  updatedAt : String
  timeoutId : Option Nat
deriving Repr, DecidableEq

/-- The HTTP responses produced by the part_001 route handlers. -/
inductive HttpResp where
  | okSimple
  | okNote (note : String)
  | okStart (request_id : String) (callback_url : String)
  | okStarted (request_id : String) (note : String)
  | badRequest (error : String)
  | unauthorized (error : String)
  | notFound
  | internalError
deriving Repr, DecidableEq

/-- The HTTP status code of each response shape. -/
def httpStatus : HttpResp → Nat
  | HttpResp.okSimple => 200
  | HttpResp.okNote _ => 200
  | HttpResp.okStart _ _ => 200
  | HttpResp.okStarted _ _ => 200
  | HttpResp.badRequest _ => 400
  | HttpResp.unauthorized _ => 401
  | HttpResp.notFound => 404
  | HttpResp.internalError => 500

/-- A websocket message pushed by the server (part_001's `safeSend` /
`broadcastToRequest` payloads). -/
inductive Event where
  | welcome
  | job_state (request_id : String) (status : String) (response : RespVal)
  | job_completed (request_id : String) (status : String) (response : RespVal)
  | job_timeout (request_id : String) (status : String) (message : String)
deriving Repr, DecidableEq

/-- The whole in-memory server state of part_001: `jobs`, `subs`, `meta`,
the set of connected websocket clients (`wss.clients`, with their
open/not-open `readyState`), and the pending one-shot timers that
`setTimeout` has registered and neither `clearTimeout` nor firing has
removed yet.  `nextTimerId` feeds fresh timer ids. -/
structure ServerState where
  jobs : List (String × Job)
  subs : List (String × List Nat)
  meta : List (Nat × List String)
  clients : List (Nat × Bool)
  pendingTimers : List (Nat × String)
  nextTimerId : Nat
deriving Repr, DecidableEq

/-- `ws.readyState === WebSocket.OPEN` for connection `c`. -/
def connOpen (s : ServerState) (c : Nat) : Bool :=
  (aget s.clients c).getD false

/-! ## Broadcast dispatcher (part_001 `broadcastToRequest`, lines 46-54)

`broadcastToRequest(request_id, obj)` either sends to the subscriber set
(each member through `safeSend`, which skips non-open sockets) or, when
the set is missing or empty, to every open client.  We embed it as a
plan: the Bool records whether the fallback branch was taken, the list
is exactly the connections `safeSend` actually writes to. -/

/-- All clients of `wss.clients` whose `readyState` is OPEN. -/
def allOpenClients (s : ServerState) : List Nat :=
  (s.clients.filter (fun p => p.2)).map (fun p => p.1)

/-- The recipients of `broadcastToRequest s rid`: fallback flag and the
connections written to. -/
def broadcastPlan (s : ServerState) (rid : String) : Bool × List Nat :=
  match aget s.subs rid with
  | some set =>
    if set.length ≠ 0 then (false, set.filter (fun c => connOpen s c))
    else (true, allOpenClients s)
  | none => (true, allOpenClients s)

/-! ## Timeout scheduler (part_001 `scheduleTimeout`, lines 56-74, and
the timer body as a separate firing operation) -/

/-- `scheduleTimeout(request_id)`: clear any timer already stored on the
job, register a fresh one-shot timer, store its id on the record. -/
def scheduleTimeout (rid : String) (s : ServerState) : ServerState :=
  match aget s.jobs rid with
  | none => s
  | some j =>
    let timers := match j.timeoutId with
      | some t => aerase s.pendingTimers t
      | none => s.pendingTimers
    let tid := s.nextTimerId
    let j1 : Job := { j with timeoutId := some tid }
    { s with jobs := aset s.jobs rid j1,
             pendingTimers := timers ++ [(tid, rid)],
             nextTimerId := tid + 1 }

/-- The body of the `setTimeout` callback in `scheduleTimeout` (part_001
lines 60-71), run when pending timer `tid` expires.  A timer fires at
most once: the firing first consumes the pending entry.  Note the source
broadcasts `job_timeout` before `subs.delete(request_id)`, and does not
reset `j.timeoutId`.  Returns the broadcast calls made. -/
def fireTimeout (tid : Nat) (now : String) (s : ServerState) :
    ServerState × List Event :=
  match aget s.pendingTimers tid with
  | none => (s, [])
  | some rid =>
    let s0 := { s with pendingTimers := aerase s.pendingTimers tid }
    match aget s0.jobs rid with
    | none => (s0, [])
    | some j =>
      if j.status = "completed" then (s0, [])
      else
        let j1 : Job := { j with status := "timed_out", updatedAt := now }
        let s1 := { s0 with jobs := aset s0.jobs rid j1 }
        let s2 := { s1 with subs := aerase s1.subs rid }
        (s2, [Event.job_timeout rid "timed_out" "Timeout 5 minutos"])

/-! ## Job initiation (part_001 `POST /start`, lines 110-119, and
`POST /external-start`, lines 122-140)

The source generates `request_id` from `Date.now()` and `Math.random()`;
the embedding takes the fresh id, the timestamp and the request's
protocol/host as parameters. -/

/-- `POST /start`. -/
def startJob (rid : String) (now : String) (proto : String) (host : String)
    (s : ServerState) : ServerState × HttpResp :=
  let job : Job := { request_id := rid, status := "pending", response := RespVal.null,
                     createdAt := now, updatedAt := now, timeoutId := none }
  ({ s with jobs := aset s.jobs rid job },
   HttpResp.okStart rid (proto ++ "://" ++ host ++ "/callbacks/fireworks"))

/-- `POST /external-start`. -/
def externalStart (rid0 : Option String) (now : String) (s : ServerState) :
    ServerState × HttpResp :=
  match truthyStr rid0 with
  | none => (s, HttpResp.badRequest "missing request_id")
  | some rid =>
    match aget s.jobs rid with
    | none => (s, HttpResp.notFound)
    | some j =>
      if j.status = "completed" ∨ j.status = "timed_out" then
        (s, HttpResp.okNote "job already finished")
      else
        let j1 : Job := { j with status := "processing", updatedAt := now }
        let s1 := { s with jobs := aset s.jobs rid j1 }
        (scheduleTimeout rid s1,
         HttpResp.okStarted rid "external processing started; timeout scheduled")

/-! ## Callback handler, post-authentication part (part_001 lines 168-184) -/

/-- `status || 'completed'` (part_001 line 176). -/
def callbackStatus (p : CallbackPayload) : String :=
  (truthyStr p.status).getD "completed"

/-- `response || req.body` (part_001 line 177). -/
def callbackRespVal (p : CallbackPayload) : RespVal :=
  match truthyStr p.response with
  | some v => RespVal.str v
  | none => RespVal.obj p

/-- The apply step of the callback handler (part_001 lines 174-181),
reached when the job is absent or not `completed`: disarm the stored
timer if any, overwrite status/response/updatedAt, store, broadcast
`job_completed`.  `existing` is `jobs.get(request_id)`; when it is
`none` the handler works on the fresh `{ request_id, createdAt: now }`
record (whose `timeoutId` is undefined, hence falsy). -/
def applyCallback (rid : String) (existing : Option Job) (p : CallbackPayload)
    (now : String) (s : ServerState) : ServerState × HttpResp × List Event :=
  let oldTid : Option Nat := match existing with
    | some j => j.timeoutId
    | none => none
  let timers := match oldTid with
    | some t => aerase s.pendingTimers t
    | none => s.pendingTimers
  let createdAt := match existing with
    | some j => j.createdAt
    | none => now
  let j1 : Job := { request_id := rid, status := callbackStatus p,
                    response := callbackRespVal p, createdAt := createdAt,
                    updatedAt := now, timeoutId := none }
  ({ s with jobs := aset s.jobs rid j1, pendingTimers := timers },
   HttpResp.okSimple,
   [Event.job_completed rid (callbackStatus p) (callbackRespVal p)])

/-- The callback handler after authentication has succeeded (part_001
lines 168-184).  The idempotency guard checks only `=== 'completed'`;
a fresh record created on the spot has undefined status, which is never
`'completed'`, so the guard is equivalently a check on the stored job. -/
def processCallback (p : CallbackPayload) (now : String) (s : ServerState) :
    ServerState × HttpResp × List Event :=
  match truthyStr p.request_id with
  | none => (s, HttpResp.badRequest "missing request_id", [])
  | some rid =>
    match aget s.jobs rid with
    | some j =>
      if j.status = "completed" then
        (s, HttpResp.okNote "already completed", [])
      else applyCallback rid (some j) p now s
    | none => applyCallback rid none p now s

/-! ## Signature verifier

`computeHmacHex` wraps Node's `crypto.createHmac('sha256', …)`; the HMAC
itself is external cryptography, so the verifier takes the computed hex
digest as an input.  A genuine HMAC-SHA256 hex digest is 64 hex
characters, i.e. decodes to 32 bytes; theorems carry that as a
hypothesis where needed.

`Buffer.from(s, 'hex')` decodes hex digit pairs left to right and stops
at the first invalid character or incomplete pair. -/

/-- Value of a hex digit, if it is one. -/
def hexVal (c : Char) : Option Nat :=
  if ('0' ≤ c ∧ c ≤ '9') then some (c.toNat - '0'.toNat)
  else if ('a' ≤ c ∧ c ≤ 'f') then some (c.toNat - 'a'.toNat + 10)
  else if ('A' ≤ c ∧ c ≤ 'F') then some (c.toNat - 'A'.toNat + 10)
  else none

/-- `Buffer.from(s, 'hex')` as a list of byte values. -/
def hexDecode : List Char → List Nat
  | c1 :: c2 :: rest =>
    match hexVal c1, hexVal c2 with
    | some h, some l => (16 * h + l) :: hexDecode rest
    | _, _ => []
  | _ => []

/-- JS `str.split(sep)` for a one-character separator, on the character
list of the string (`'a=b=c'.split('=')` is `['a','b','c']`, and
`''.split('=')` is `['']`). -/
def splitOnChar (sep : Char) : List Char → List (List Char)
  | [] => [[]]
  | c :: rest =>
    match splitOnChar sep rest with
    | [] => [[c]]
    | h :: t => if c = sep then [] :: h :: t else (c :: h) :: t

/-- Outcome of the header-based check in part_001 (lines 156-163).  The
Bool records whether `crypto.timingSafeEqual` was invoked: the explicit
`a.length !== b.length ||` guard short-circuits before any byte-wise
comparison on a length mismatch. -/
inductive VerifyOutcome where
  | ok
  | invalidFormat
  | invalidSignature
deriving Repr, DecidableEq

/-- `signatureHeader.split('=')`. -/
def headerParts (hdr : String) : List (List Char) :=
  splitOnChar '=' hdr.toList

/-- The byte buffer decoded from the hex digest carried by an
`X-Signature: sha256=<hex>` header (`Buffer.from(sigHex, 'hex')`). -/
def providedDigest (hdr : String) : List Nat :=
  hexDecode ((headerParts hdr).getD 1 [])

/-- part_001's header verification (lines 157-163): split on `=`, demand
exactly two parts with scheme `sha256`, then length-guarded
constant-time comparison of the decoded buffers. -/
def verifySigHeader (hdr : String) (computedHex : String) :
    VerifyOutcome × Bool :=
  let parts := headerParts hdr
  if parts.length ≠ 2 ∨ parts.getD 0 [] ≠ "sha256".toList then
    (VerifyOutcome.invalidFormat, false)
  else
    let a := hexDecode (parts.getD 1 [])
    let b := hexDecode computedHex.toList
    if a.length ≠ b.length then (VerifyOutcome.invalidSignature, false)
    else if a ≠ b then (VerifyOutcome.invalidSignature, true)
    else (VerifyOutcome.ok, true)

/-- Outcome of the header-based check in `src/server.js` lines 91-96 and
`src/unnamed/part_000` lines 119-128, which call
`crypto.timingSafeEqual` with no length guard.  Node's
`timingSafeEqual` throws `RangeError` when the buffers differ in
length; `threw` records that exception. -/
inductive VerifyOutcomeS where
  | ok
  | invalidFormat
  | invalidSignature
  | threw
deriving Repr, DecidableEq

/-- The server.js / part_000 header verification. -/
def verifySigHeaderServer (hdr : String) (computedHex : String) :
    VerifyOutcomeS :=
  let parts := headerParts hdr
  if parts.length ≠ 2 ∨ parts.getD 0 [] ≠ "sha256".toList then
    VerifyOutcomeS.invalidFormat
  else
    let a := hexDecode (parts.getD 1 [])
    let b := hexDecode computedHex.toList
    if a.length ≠ b.length then VerifyOutcomeS.threw
    else if a ≠ b then VerifyOutcomeS.invalidSignature
    else VerifyOutcomeS.ok

/-- The HTTP status with which server.js / part_000 answer a callback
whose `X-Signature` header check does not pass: 401 on an explicit
rejection, 500 when `timingSafeEqual` throws (the route's `catch`
returns `{ error: 'internal error' }`, line 139 / 185); `none` means
verification passed and the request proceeds. -/
def serverCallbackAuthStatus (hdr : String) (computedHex : String) :
    Option Nat :=
  match verifySigHeaderServer hdr computedHex with
  | VerifyOutcomeS.threw => some 500
  | VerifyOutcomeS.invalidFormat => some 401
  | VerifyOutcomeS.invalidSignature => some 401
  | VerifyOutcomeS.ok => none

/-- The full part_001 `POST /callbacks/fireworks` handler (lines
152-189): `req.get('X-Signature') || ''` selects header verification or
the in-body shared-secret fallback, then the post-auth processing. -/
def callbacksFireworks (hdr : Option String) (computedHex : String)
    (secret : String) (p : CallbackPayload) (now : String) (s : ServerState) :
    ServerState × HttpResp × List Event :=
  match truthyStr hdr with
  | some h =>
    match verifySigHeader h computedHex with
    | (VerifyOutcome.invalidFormat, _) =>
        (s, HttpResp.unauthorized "invalid signature format", [])
    | (VerifyOutcome.invalidSignature, _) =>
        (s, HttpResp.unauthorized "invalid signature", [])
    | (VerifyOutcome.ok, _) => processCallback p now s
  | none =>
    match truthyStr p.shared_secret with
    | some v =>
      if v = secret then processCallback p now s
      else (s, HttpResp.unauthorized "invalid shared_secret", [])
    | none => (s, HttpResp.unauthorized "invalid shared_secret", [])

/-! ## Connection lifecycle (part_001 lines 77-107) -/

/-- `wss.on('connection')`: fresh meta entry, welcome message. -/
def wsConnect (c : Nat) (s : ServerState) : ServerState × List (Nat × Event) :=
  ({ s with clients := aset s.clients c true, meta := aset s.meta c [] },
   [(c, Event.welcome)])

/-- The `subscribe` branch of the message handler (lines 84-91): add the
edge to both indexes, then send a `job_state` snapshot if the job is
known.  The source calls `meta.get(ws).add(...)`, which presupposes the
connection handler's meta entry; for a connection with no meta entry
that line would throw, so the embedding leaves `meta` unchanged there
(the case is unreachable for a connected client). -/
def subscribeMsg (c : Nat) (rid0 : Option String) (s : ServerState) :
    ServerState × List (Nat × Event) :=
  match truthyStr rid0 with
  | none => (s, [])
  | some rid =>
    let set := (aget s.subs rid).getD []
    let subs1 := aset s.subs rid (sinsert c set)
    let meta1 := match aget s.meta c with
      | some rs => aset s.meta c (sinsert rid rs)
      | none => s.meta
    let s1 := { s with subs := subs1, meta := meta1 }
    let msgs := match aget s.jobs rid with
      | some j =>
        if connOpen s c then
          [(c, Event.job_state rid j.status (respOrNull j.response))]
        else []
      | none => []
    (s1, msgs)

/-- One iteration of the close handler's loop: delete the connection
from `rid`'s subscriber set (if that set exists), dropping the set
entirely when it empties (`if (set.size === 0) subs.delete(rid)`). -/
def removeConnStep (c : Nat) (rid : String)
    (subs : List (String × List Nat)) : List (String × List Nat) :=
  match aget subs rid with
  | some set1 =>
    let set2 := set1.filter (fun x => x ≠ c)
    if set2 = [] then aerase subs rid else aset subs rid set2
  | none => subs

/-- The close handler's loop over every request id in the connection's
meta set. -/
def removeConnFrom (c : Nat) (rids : List String)
    (subs : List (String × List Nat)) : List (String × List Nat) :=
  match rids with
  | [] => subs
  | rid :: rest => removeConnFrom c rest (removeConnStep c rid subs)

/-- `ws.on('close')` (lines 94-106): clean both indexes and drop the
connection. -/
def wsClose (c : Nat) (s : ServerState) : ServerState :=
  let subs1 := match aget s.meta c with
    | some rs => removeConnFrom c rs s.subs
    | none => s.subs
  { s with subs := subs1, meta := aerase s.meta c, clients := aerase s.clients c }

/-! ## The mirrored-index invariant (spec section 3) -/

/-- `c ∈ subs[rid]` for a raw subscriber index. -/
def inSubsL (subs : List (String × List Nat)) (rid : String) (c : Nat) : Prop :=
  match aget subs rid with
  | some set => c ∈ set
  | none => False

/-- `c ∈ subs[rid]` in state `s`. -/
def inSubs (s : ServerState) (rid : String) (c : Nat) : Prop :=
  inSubsL s.subs rid c

/-- `rid ∈ meta[c]` in state `s`. -/
def inMeta (s : ServerState) (c : Nat) (rid : String) : Prop :=
  match aget s.meta c with
  | some rs => rid ∈ rs
  | none => False

/-- The two subscription indexes agree. -/
def mirrored (s : ServerState) : Prop :=
  ∀ rid c, inSubs s rid c ↔ inMeta s c rid

/-- Recognizer for `job_completed` broadcast calls. -/
def isJobCompleted : Event → Bool
  | Event.job_completed _ _ _ => true
  | _ => false

/-! ## Concrete states and payloads used by witnesses and counterexamples -/

/-- The empty server state. -/
def emptyState : ServerState :=
  { jobs := [], subs := [], meta := [], clients := [], pendingTimers := [],
    nextTimerId := 1 }

/-- A job that has already timed out. -/
def jTimedOut : Job :=
  { request_id := "r1", status := "timed_out", response := RespVal.null,
    createdAt := "t0", updatedAt := "t0", timeoutId := none }

/-- A job in the middle of processing (no timer armed). -/
def jProcessing : Job :=
  { request_id := "r1", status := "processing", response := RespVal.null,
    createdAt := "t0", updatedAt := "t0", timeoutId := none }

/-- State holding one timed-out job `r1`. -/
def sC1 : ServerState := { emptyState with jobs := [("r1", jTimedOut)] }

/-- A well-formed callback payload for `r1` with no `status` field. -/
def pC1 : CallbackPayload :=
  { request_id := some "r1", status := none, response := some "R",
    shared_secret := none }

/-- State holding one processing job `r1`. -/
def sC2 : ServerState := { emptyState with jobs := [("r1", jProcessing)] }

/-- A callback payload for `r1` whose `status` field is present but the
empty string. -/
def pC2 : CallbackPayload :=
  { request_id := some "r1", status := some "", response := some "R",
    shared_secret := none }

/-- A plausible computed HMAC-SHA256 hex digest: 64 hex characters. -/
def computedW : String := String.mk (List.replicate 64 'a')

/-- State with a single open connection 1 which is the sole subscriber
of request id `B`. -/
def sC4 : ServerState :=
  { emptyState with clients := [(1, true)], subs := [("B", [1])],
                    meta := [(1, ["B"])] }

/-- State with connection 1 subscribed to `r1`, whose job is processing
with timer 1 armed. -/
def sC5 : ServerState :=
  { emptyState with
      jobs := [("r1", { jProcessing with timeoutId := some 1 })],
      subs := [("r1", [1])], meta := [(1, ["r1"])], clients := [(1, true)],
      pendingTimers := [(1, "r1")], nextTimerId := 2 }

/-- State with one connected client that has not subscribed yet. -/
def sW5 : ServerState :=
  { emptyState with meta := [(1, [])], clients := [(1, true)] }

/-- A completed job holding a stored response. -/
def jCompleted : Job :=
  { request_id := "r1", status := "completed", response := RespVal.str "R",
    createdAt := "t0", updatedAt := "t1", timeoutId := none }

/-- State with a completed job `r1` holding a stored response, and an
open connection 1. -/
def sW8 : ServerState :=
  { emptyState with jobs := [("r1", jCompleted)],
                    meta := [(1, [])], clients := [(1, true)] }

/-! # Theorems

First the association-list and set lemmas, then the lemmas about the
close handler's index cleanup, then the claim theorems with their
witnesses and counterexamples. -/

theorem aget_aset_self {κ α : Type} [DecidableEq κ] (m : List (κ × α)) (k : κ) (v : α) :
    aget (aset m k v) k = some v := by
  induction m with
  | nil => simp [aget, aset]
  | cons hd tl ih =>
    obtain ⟨k1, v1⟩ := hd
    by_cases h : k1 = k
    · simp [aget, aset, h]
    · simp [aget, aset, h, ih]

theorem aget_aset_ne {κ α : Type} [DecidableEq κ] (m : List (κ × α)) (k k2 : κ) (v : α)
    (h : k2 ≠ k) : aget (aset m k v) k2 = aget m k2 := by
  induction m with
  | nil => simp [aget, aset, Ne.symm h]
  | cons hd tl ih =>
    obtain ⟨k1, v1⟩ := hd
    by_cases h1 : k1 = k
    · subst h1
      simp [aget, aset, Ne.symm h]
    · simp only [aset, if_neg h1, aget]
      by_cases h2 : k1 = k2 <;> simp [h2, ih]

theorem aget_aerase_self {κ α : Type} [DecidableEq κ] (m : List (κ × α)) (k : κ) :
    aget (aerase m k) k = none := by
  induction m with
  | nil => simp [aget, aerase]
  | cons hd tl ih =>
    obtain ⟨k1, v1⟩ := hd
    by_cases h : k1 = k
    · simp [aerase, h, ih]
    · simp [aerase, aget, h, ih]

theorem aget_aerase_ne {κ α : Type} [DecidableEq κ] (m : List (κ × α)) (k k2 : κ)
    (h : k2 ≠ k) : aget (aerase m k) k2 = aget m k2 := by
  induction m with
  | nil => simp [aerase]
  | cons hd tl ih =>
    obtain ⟨k1, v1⟩ := hd
    by_cases h1 : k1 = k
    · subst h1
      simp [aerase, aget, Ne.symm h, ih]
    · simp only [aerase, if_neg h1, aget]
      by_cases h2 : k1 = k2 <;> simp [h2, ih]

theorem aget_append_left_none {κ α : Type} [DecidableEq κ] (m1 m2 : List (κ × α)) (k : κ)
    (h : aget m1 k = none) : aget (m1 ++ m2) k = aget m2 k := by
  induction m1 with
  | nil => simp
  | cons hd tl ih =>
    obtain ⟨k1, v1⟩ := hd
    by_cases h1 : k1 = k
    · simp [aget, h1] at h
    · simp only [aget, if_neg h1] at h
      simp [aget, h1, ih h]

theorem mem_sinsert {α : Type} [DecidableEq α] (x y : α) (l : List α) :
    x ∈ sinsert y l ↔ x = y ∨ x ∈ l := by
  unfold sinsert
  by_cases h : y ∈ l
  · simp only [if_pos h]
    constructor
    · intro hx; exact Or.inr hx
    · intro hx
      rcases hx with hx | hx
      · subst hx; exact h
      · exact hx
  · simp [if_neg h, or_comm]

/-! ## Shared facts about the callback handler -/

/-- When the stored job (if any) is not `completed`, the callback
handler takes the apply path. -/
theorem processCallback_not_completed (s : ServerState) (p : CallbackPayload)
    (rid now : String)
    (hrid : truthyStr p.request_id = some rid)
    (hpass : ∀ j, aget s.jobs rid = some j → j.status ≠ "completed") :
    processCallback p now s = applyCallback rid (aget s.jobs rid) p now s := by
  cases hjob : aget s.jobs rid with
  | none => simp [processCallback, hrid, hjob]
  | some j => simp [processCallback, hrid, hjob, hpass j hjob]

/-- When the stored job is `completed`, the callback handler answers the
idempotency note, mutating nothing and broadcasting nothing. -/
theorem processCallback_already_completed (s : ServerState) (p : CallbackPayload)
    (rid now : String) (j : Job)
    (hrid : truthyStr p.request_id = some rid)
    (hj : aget s.jobs rid = some j) (hst : j.status = "completed") :
    processCallback p now s = (s, HttpResp.okNote "already completed", []) := by
  simp [processCallback, hrid, hj, hst]

/-- The apply step leaves every other job untouched. -/
theorem applyCallback_jobs_ne (rid0 : String) (ex : Option Job)
    (p : CallbackPayload) (now : String) (s : ServerState) (rid : String)
    (h : rid ≠ rid0) :
    aget (applyCallback rid0 ex p now s).1.jobs rid = aget s.jobs rid := by
  simp only [applyCallback]
  exact aget_aset_ne _ _ _ _ h

/-- The not-completed hypothesis at the concrete state `sC2`. -/
theorem sC2_not_completed :
    ∀ j, aget sC2.jobs "r1" = some j → j.status ≠ "completed" := by
  intro j hj
  have h2 : (some jProcessing : Option Job) = some j := hj
  cases Option.some.inj h2
  decide

/-! ## C7: job initiation endpoints -/

/-- C7: `POST /start` creates a job with status `pending` and no timeout
armed, answering with the request id and callback URL; `POST
/external-start` answers 404 for an unknown id, an idempotent
success-note with no mutation when the job is already terminal, and for
a stored non-terminal job sets status `processing` and arms the
deadline timer.  (`hfresh` says the next timer id is not already a
pending timer, which holds for every reachable state since ids are
allocated increasingly.) -/
theorem C7_job_initiation (s : ServerState) (rid rid2 now proto host : String)
    (hr2 : rid2 ≠ "")
    (hfresh : aget s.pendingTimers s.nextTimerId = none) :
    (aget (startJob rid now proto host s).1.jobs rid =
       some { request_id := rid, status := "pending", response := RespVal.null,
              createdAt := now, updatedAt := now, timeoutId := none } ∧
     (startJob rid now proto host s).2 =
       HttpResp.okStart rid (proto ++ "://" ++ host ++ "/callbacks/fireworks")) ∧
    (aget s.jobs rid2 = none →
       externalStart (some rid2) now s = (s, HttpResp.notFound)) ∧
    (∀ j, aget s.jobs rid2 = some j →
       (j.status = "completed" ∨ j.status = "timed_out") →
       externalStart (some rid2) now s = (s, HttpResp.okNote "job already finished")) ∧
    (∀ j, aget s.jobs rid2 = some j →
       j.status ≠ "completed" → j.status ≠ "timed_out" →
       ∃ j1, aget (externalStart (some rid2) now s).1.jobs rid2 = some j1 ∧
         j1.status = "processing" ∧ j1.updatedAt = now ∧
         j1.timeoutId = some s.nextTimerId ∧
         aget (externalStart (some rid2) now s).1.pendingTimers s.nextTimerId =
           some rid2 ∧
         httpStatus (externalStart (some rid2) now s).2 = 200) := by
  refine ⟨⟨?_, ?_⟩, ?_, ?_, ?_⟩
  · simp [startJob, aget_aset_self]
  · simp [startJob]
  · intro hnone
    simp [externalStart, truthyStr, hr2, hnone]
  · intro j hj hterm
    simp [externalStart, truthyStr, hr2, hj, hterm]
  · intro j hj hc ht
    have hres : externalStart (some rid2) now s =
        (scheduleTimeout rid2
          { s with jobs := aset s.jobs rid2 { j with status := "processing", updatedAt := now } },
         HttpResp.okStarted rid2 "external processing started; timeout scheduled") := by
      simp [externalStart, truthyStr, hr2, hj, hc, ht]
    rw [hres]
    simp only [scheduleTimeout, aget_aset_self]
    refine ⟨_, rfl, rfl, rfl, rfl, ?_, rfl⟩
    have hnone2 : aget (match
        (({ j with status := "processing", updatedAt := now } : Job)).timeoutId with
      | some t => aerase s.pendingTimers t
      | none => s.pendingTimers) s.nextTimerId = none := by
      cases htid : j.timeoutId with
      | none => simp only [htid]; exact hfresh
      | some t =>
        simp only [htid]
        by_cases he : s.nextTimerId = t
        · subst he; exact aget_aerase_self s.pendingTimers s.nextTimerId
        · rw [aget_aerase_ne s.pendingTimers t s.nextTimerId he]; exact hfresh
    rw [aget_append_left_none _ _ _ hnone2]
    simp [aget]

/-- Witness for C7 at a concrete state: one processing job `r1`, and a
fresh id `a` for `/start`. -/
theorem C7_job_initiation_witness :
    ∃ j1, aget (externalStart (some "r1") "t9" sC2).1.jobs "r1" = some j1 ∧
      j1.status = "processing" ∧ j1.updatedAt = "t9" ∧
      j1.timeoutId = some sC2.nextTimerId ∧
      aget (externalStart (some "r1") "t9" sC2).1.pendingTimers sC2.nextTimerId =
        some "r1" ∧
      httpStatus (externalStart (some "r1") "t9" sC2).2 = 200 :=
  (C7_job_initiation sC2 "a" "r1" "t9" "http" "example.com" (by decide)
    (by decide)).2.2.2 jProcessing (by decide) (by decide) (by decide)

/-! ## C9: callbacks for unknown request ids -/

/-- C9: an authenticated callback whose `request_id` matches no stored
job is not a 404 — the handler creates a fresh record at callback time
(status from the payload, defaulting to `completed`), broadcasts
`job_completed` for it, and answers 200. -/
theorem C9_unknown_id_creates (s : ServerState) (p : CallbackPayload)
    (rid now : String)
    (hrid : truthyStr p.request_id = some rid)
    (hnone : aget s.jobs rid = none) :
    httpStatus (processCallback p now s).2.1 = 200 ∧
    (processCallback p now s).2.1 ≠ HttpResp.notFound ∧
    aget (processCallback p now s).1.jobs rid =
      some { request_id := rid, status := callbackStatus p,
             response := callbackRespVal p, createdAt := now,
             updatedAt := now, timeoutId := none } ∧
    (truthyStr p.status = none → callbackStatus p = "completed") ∧
    (processCallback p now s).2.2 =
      [Event.job_completed rid (callbackStatus p) (callbackRespVal p)] := by
  refine ⟨?_, ?_, ?_, ?_, ?_⟩
  · simp [processCallback, applyCallback, hrid, hnone, httpStatus]
  · simp [processCallback, applyCallback, hrid, hnone]
  · simp [processCallback, applyCallback, hrid, hnone, aget_aset_self]
  · intro h; simp [callbackStatus, h]
  · simp [processCallback, applyCallback, hrid, hnone]

/-- Witness for C9: callback for `r1` against the empty job store. -/
theorem C9_unknown_id_creates_witness :
    httpStatus (processCallback pC1 "t1" emptyState).2.1 = 200 ∧
    (processCallback pC1 "t1" emptyState).2.1 ≠ HttpResp.notFound ∧
    aget (processCallback pC1 "t1" emptyState).1.jobs "r1" =
      some { request_id := "r1", status := callbackStatus pC1,
             response := callbackRespVal pC1, createdAt := "t1",
             updatedAt := "t1", timeoutId := none } ∧
    (truthyStr pC1.status = none → callbackStatus pC1 = "completed") ∧
    (processCallback pC1 "t1" emptyState).2.2 =
      [Event.job_completed "r1" (callbackStatus pC1) (callbackRespVal pC1)] :=
  C9_unknown_id_creates emptyState pC1 "r1" "t1" (by decide) (by decide)

/-! ## C1: terminality of finished jobs -/

/-- C1 counterexample: the claim says a `timed_out` job is final, but in
part_001 the callback handler's idempotency guard checks only
`=== 'completed'` (line 172), so a subsequent valid callback for a
timed-out job overwrites its `status`, `response` and `updatedAt`. -/
theorem C1_counterexample :
    (aget sC1.jobs "r1").map Job.status = some "timed_out" ∧
    (aget (processCallback pC1 "t2" sC1).1.jobs "r1").map Job.status =
      some "completed" ∧
    (aget (processCallback pC1 "t2" sC1).1.jobs "r1").map Job.updatedAt =
      some "t2" ∧
    (aget (processCallback pC1 "t2" sC1).1.jobs "r1").map Job.response =
      some (RespVal.str "R") := by
  decide

/-- C1 amended: a job whose status is `completed` is truly final — no
callback, external-start or timer firing changes its record (in
particular its `status`, `response` or `updatedAt`); a `timed_out` job,
by contrast, can be resurrected by a callback in part_001. -/
theorem C1_completed_terminal (s : ServerState) (rid : String) (j : Job)
    (hj : aget s.jobs rid = some j) (hst : j.status = "completed")
    (p : CallbackPayload) (now : String) (rid2 : Option String) (tid : Nat) :
    aget (processCallback p now s).1.jobs rid = some j ∧
    aget (externalStart rid2 now s).1.jobs rid = some j ∧
    aget (fireTimeout tid now s).1.jobs rid = some j := by
  refine ⟨?_, ?_, ?_⟩
  · cases hr : truthyStr p.request_id with
    | none => simp [processCallback, hr, hj]
    | some rid0 =>
      by_cases he : rid0 = rid
      · subst he
        rw [processCallback_already_completed s p rid0 now j hr hj hst]
        exact hj
      · cases hj0 : aget s.jobs rid0 with
        | some j0 =>
          by_cases hc : j0.status = "completed"
          · rw [processCallback_already_completed s p rid0 now j0 hr hj0 hc]
            exact hj
          · have hkey : processCallback p now s = applyCallback rid0 (some j0) p now s := by
              simp [processCallback, hr, hj0, hc]
            rw [hkey, applyCallback_jobs_ne _ _ _ _ _ _ (Ne.symm he)]
            exact hj
        | none =>
          have hkey : processCallback p now s = applyCallback rid0 none p now s := by
            simp [processCallback, hr, hj0]
          rw [hkey, applyCallback_jobs_ne _ _ _ _ _ _ (Ne.symm he)]
          exact hj
  · cases hr : truthyStr rid2 with
    | none => simp [externalStart, hr, hj]
    | some r0 =>
      by_cases he : r0 = rid
      · subst he
        simp [externalStart, hr, hj, hst]
      · cases hj0 : aget s.jobs r0 with
        | none => simp [externalStart, hr, hj0, hj]
        | some j0 =>
          by_cases hterm : j0.status = "completed" ∨ j0.status = "timed_out"
          · simp [externalStart, hr, hj0, hterm, hj]
          · simp only [externalStart, hr, hj0]
            rw [if_neg hterm]
            simp only [scheduleTimeout, aget_aset_self]
            rw [aget_aset_ne _ _ _ _ (Ne.symm he), aget_aset_ne _ _ _ _ (Ne.symm he)]
            exact hj
  · cases hp : aget s.pendingTimers tid with
    | none => simp [fireTimeout, hp, hj]
    | some r0 =>
      by_cases he : r0 = rid
      · subst he
        simp [fireTimeout, hp, hj, hst]
      · cases hj0 : aget s.jobs r0 with
        | none => simp [fireTimeout, hp, hj0, hj]
        | some j0 =>
          by_cases hc : j0.status = "completed"
          · simp [fireTimeout, hp, hj0, hc, hj]
          · simp only [fireTimeout, hp, hj0]
            rw [if_neg hc]
            rw [aget_aset_ne _ _ _ _ (Ne.symm he)]
            exact hj

/-- Witness for C1 amended at the completed job of `sW8`, hit by a
callback, an external-start and a timer firing. -/
theorem C1_completed_terminal_witness :
    aget (processCallback pC1 "t3" sW8).1.jobs "r1" = some jCompleted ∧
    aget (externalStart (some "r1") "t3" sW8).1.jobs "r1" = some jCompleted ∧
    aget (fireTimeout 1 "t3" sW8).1.jobs "r1" = some jCompleted :=
  C1_completed_terminal sW8 "r1" jCompleted (by decide) (by decide) pC1 "t3"
    (some "r1") 1

/-! ## C2: the callback apply step -/

/-- C2 counterexample: the claim says the job's status is set to the
payload's `status` field whenever it is present; but `status ||
'completed'` also defaults on a present-but-falsy value, so a payload
carrying `status: ""` yields a job whose status is `completed`, not
`""`. -/
theorem C2_counterexample :
    pC2.status = some "" ∧
    (aget (processCallback pC2 "t1" sC2).1.jobs "r1").map Job.status =
      some "completed" := by
  decide

/-- C2 amended: for every authenticated callback that passes the
idempotency check, the apply step sets the job's status to the payload's
`status` when it is present and non-empty and to `completed` when it is
absent or empty, clears the stored timer handle and cancels that pending
timer, stores the response payload (`response || req.body`), and stamps
`updatedAt` with the current time. -/
theorem C2_callback_apply (s : ServerState) (p : CallbackPayload)
    (rid now : String)
    (hrid : truthyStr p.request_id = some rid)
    (hpass : ∀ j, aget s.jobs rid = some j → j.status ≠ "completed") :
    (∃ j1, aget (processCallback p now s).1.jobs rid = some j1 ∧
       j1.status = callbackStatus p ∧ j1.updatedAt = now ∧
       j1.timeoutId = none ∧ j1.response = callbackRespVal p) ∧
    (∀ v, truthyStr p.status = some v → callbackStatus p = v) ∧
    (truthyStr p.status = none → callbackStatus p = "completed") ∧
    (∀ j t, aget s.jobs rid = some j → j.timeoutId = some t →
       aget (processCallback p now s).1.pendingTimers t = none) := by
  have key := processCallback_not_completed s p rid now hrid hpass
  refine ⟨?_, ?_, ?_, ?_⟩
  · rw [key]
    simp only [applyCallback]
    exact ⟨_, aget_aset_self _ _ _, rfl, rfl, rfl, rfl⟩
  · intro v hv; simp [callbackStatus, hv]
  · intro h; simp [callbackStatus, h]
  · intro j t hj htid
    rw [key, hj]
    simp [applyCallback, htid, aget_aerase_self]

/-- Witness for C2 amended: a callback for the processing job `r1` of
`sC5`, whose armed timer 1 is disarmed by the apply step. -/
theorem C2_callback_apply_witness :
    (∃ j1, aget (processCallback pC1 "t1" sC5).1.jobs "r1" = some j1 ∧
       j1.status = callbackStatus pC1 ∧ j1.updatedAt = "t1" ∧
       j1.timeoutId = none ∧ j1.response = callbackRespVal pC1) ∧
    (∀ v, truthyStr pC1.status = some v → callbackStatus pC1 = v) ∧
    (truthyStr pC1.status = none → callbackStatus pC1 = "completed") ∧
    (∀ j t, aget sC5.jobs "r1" = some j → j.timeoutId = some t →
       aget (processCallback pC1 "t1" sC5).1.pendingTimers t = none) :=
  C2_callback_apply sC5 pC1 "r1" "t1" (by decide)
    (by intro j hj
        have h2 : (some { jProcessing with timeoutId := some 1 } : Option Job) =
            some j := hj
        cases Option.some.inj h2
        decide)

/-! ## C6: idempotent completion -/

/-- C6: posting the same valid completing callback twice yields HTTP 200
both times, but the second request mutates nothing, broadcasts nothing,
and `job_completed` is broadcast exactly once across the two posts. -/
theorem C6_idempotent_completion (s : ServerState) (p : CallbackPayload)
    (rid now1 now2 : String)
    (hrid : truthyStr p.request_id = some rid)
    (hstat : callbackStatus p = "completed")
    (hpass : ∀ j, aget s.jobs rid = some j → j.status ≠ "completed") :
    httpStatus (processCallback p now1 s).2.1 = 200 ∧
    httpStatus (processCallback p now2 (processCallback p now1 s).1).2.1 = 200 ∧
    (processCallback p now2 (processCallback p now1 s).1).1 =
      (processCallback p now1 s).1 ∧
    (processCallback p now2 (processCallback p now1 s).1).2.2 = [] ∧
    ((processCallback p now1 s).2.2 ++
      (processCallback p now2 (processCallback p now1 s).1).2.2).countP
        isJobCompleted = 1 := by
  have key := processCallback_not_completed s p rid now1 hrid hpass
  have h1jobs : aget (processCallback p now1 s).1.jobs rid =
      some { request_id := rid, status := callbackStatus p,
             response := callbackRespVal p,
             createdAt := (match aget s.jobs rid with
               | some j => j.createdAt
               | none => now1),
             updatedAt := now1, timeoutId := none } := by
    rw [key]
    cases aget s.jobs rid <;> exact aget_aset_self _ _ _
  have hresp1 : (processCallback p now1 s).2.1 = HttpResp.okSimple := by
    rw [key]; cases aget s.jobs rid <;> rfl
  have hevs1 : (processCallback p now1 s).2.2 =
      [Event.job_completed rid (callbackStatus p) (callbackRespVal p)] := by
    rw [key]; cases aget s.jobs rid <;> rfl
  have key2 := processCallback_already_completed (processCallback p now1 s).1 p
    rid now2 _ hrid h1jobs hstat
  refine ⟨?_, ?_, ?_, ?_, ?_⟩
  · rw [hresp1]; rfl
  · rw [key2]; rfl
  · rw [key2]
  · rw [key2]
  · rw [hevs1, key2]
    rfl

/-- Witness for C6: the same completing callback posted twice at the
processing job of `sC2`. -/
theorem C6_idempotent_completion_witness :
    httpStatus (processCallback pC1 "t1" sC2).2.1 = 200 ∧
    httpStatus (processCallback pC1 "t2" (processCallback pC1 "t1" sC2).1).2.1 = 200 ∧
    (processCallback pC1 "t2" (processCallback pC1 "t1" sC2).1).1 =
      (processCallback pC1 "t1" sC2).1 ∧
    (processCallback pC1 "t2" (processCallback pC1 "t1" sC2).1).2.2 = [] ∧
    ((processCallback pC1 "t1" sC2).2.2 ++
      (processCallback pC1 "t2" (processCallback pC1 "t1" sC2).1).2.2).countP
        isJobCompleted = 1 :=
  C6_idempotent_completion sC2 pC1 "r1" "t1" "t2" (by decide) (by decide)
    sC2_not_completed

/-! ## C10: frame effects of the deadline timer -/

/-- C10: when a pending timer fires on a job that is not `completed`,
the handler not only marks the job `timed_out` (stamping `updatedAt`)
and broadcasts `job_timeout`, it also deletes the whole subscriber set
for that request id, so a subsequent publish for the id takes the
fallback broadcast-to-all path.  (server.js / part_000 additionally
call `terminateClientsForRequest`, forcibly closing those
connections.) -/
theorem C10_timeout_clears_subscribers (s : ServerState) (tid : Nat)
    (rid now : String) (j : Job)
    (hp : aget s.pendingTimers tid = some rid)
    (hj : aget s.jobs rid = some j)
    (hnc : j.status ≠ "completed") :
    (∃ j1, aget (fireTimeout tid now s).1.jobs rid = some j1 ∧
       j1.status = "timed_out" ∧ j1.updatedAt = now) ∧
    (fireTimeout tid now s).2 =
      [Event.job_timeout rid "timed_out" "Timeout 5 minutos"] ∧
    aget (fireTimeout tid now s).1.subs rid = none ∧
    (broadcastPlan (fireTimeout tid now s).1 rid).1 = true ∧
    (broadcastPlan (fireTimeout tid now s).1 rid).2 =
      allOpenClients (fireTimeout tid now s).1 := by
  simp only [fireTimeout, hp, hj]
  rw [if_neg hnc]
  refine ⟨⟨_, aget_aset_self _ _ _, rfl, rfl⟩, rfl, aget_aerase_self _ _, ?_, ?_⟩ <;>
    simp [broadcastPlan, aget_aerase_self]

/-- Witness for C10 at `sC5`: timer 1 fires on the processing job `r1`
whose sole subscriber is connection 1. -/
theorem C10_timeout_clears_subscribers_witness :
    (∃ j1, aget (fireTimeout 1 "t2" sC5).1.jobs "r1" = some j1 ∧
       j1.status = "timed_out" ∧ j1.updatedAt = "t2") ∧
    (fireTimeout 1 "t2" sC5).2 =
      [Event.job_timeout "r1" "timed_out" "Timeout 5 minutos"] ∧
    aget (fireTimeout 1 "t2" sC5).1.subs "r1" = none ∧
    (broadcastPlan (fireTimeout 1 "t2" sC5).1 "r1").1 = true ∧
    (broadcastPlan (fireTimeout 1 "t2" sC5).1 "r1").2 =
      allOpenClients (fireTimeout 1 "t2" sC5).1 :=
  C10_timeout_clears_subscribers sC5 1 "r1" "t2"
    { jProcessing with timeoutId := some 1 } (by decide) (by decide) (by decide)

/-! ## C8: late-subscribe snapshot -/

/-- C8: a subscribe message from an open connection for a request id
whose job record exists makes the server send that connection exactly
one `job_state` message carrying the job's current status and its
stored response (normalized to `null` when falsy — for a completed job
the stored response is truthy and is sent as-is). -/
theorem C8_late_subscribe_snapshot (s : ServerState) (c : Nat) (rid : String)
    (j : Job)
    (hr : rid ≠ "") (hj : aget s.jobs rid = some j)
    (hopen : connOpen s c = true) :
    (subscribeMsg c (some rid) s).2 =
      [(c, Event.job_state rid j.status (respOrNull j.response))] ∧
    (truthyResp j.response = true → respOrNull j.response = j.response) := by
  constructor
  · simp [subscribeMsg, truthyStr, hr, hj, hopen]
  · intro h; simp [respOrNull, h]

/-- Witness for C8: connection 1 subscribes to the already-completed
job `r1` of `sW8` and receives its final response. -/
theorem C8_late_subscribe_snapshot_witness :
    (subscribeMsg 1 (some "r1") sW8).2 =
      [(1, Event.job_state "r1" jCompleted.status (respOrNull jCompleted.response))] ∧
    (truthyResp jCompleted.response = true →
      respOrNull jCompleted.response = jCompleted.response) :=
  C8_late_subscribe_snapshot sW8 1 "r1" jCompleted (by decide) (by decide)
    (by decide)

/-! ## C4: broadcast routing -/

/-- C4 counterexample: the claim's final "if and only if" fails — here
`B`'s subscriber set is non-empty, yet the event is delivered to every
currently connected client, because the set happens to contain them
all. -/
theorem C4_counterexample :
    (∀ q ∈ sC4.clients, q.1 ∈ (broadcastPlan sC4 "B").2) ∧
    (aget sC4.subs "B").getD [] ≠ [] := by
  decide

/-- C4 amended: when the subscriber set of `rid` is non-empty, the event
goes exactly to the open members of that set — in particular a
connection outside the set (e.g. one subscribed only to a different id)
receives nothing; the fallback branch, which delivers to every open
client, is taken precisely when the set is empty or absent.  ("Delivered
to every currently connected client" does not characterize the fallback,
since a non-empty set may contain every client.) -/
theorem C4_broadcast_routing (s : ServerState) (rid : String) :
    ((broadcastPlan s rid).1 = true ↔ (aget s.subs rid).getD [] = []) ∧
    (∀ l, aget s.subs rid = some l → l ≠ [] →
       (broadcastPlan s rid).2 = l.filter (fun c => connOpen s c)) ∧
    (∀ l c, aget s.subs rid = some l → l ≠ [] → c ∉ l →
       c ∉ (broadcastPlan s rid).2) ∧
    ((broadcastPlan s rid).1 = true → (broadcastPlan s rid).2 = allOpenClients s) := by
  cases hs : aget s.subs rid with
  | none =>
    refine ⟨?_, ?_, ?_, ?_⟩ <;> simp [broadcastPlan, hs]
  | some l =>
    by_cases hl : l = []
    · subst hl
      refine ⟨?_, ?_, ?_, ?_⟩
      · simp [broadcastPlan, hs]
      · intro l1 h1 hne
        exact absurd (Option.some.inj h1).symm hne
      · intro l1 c h1 hne
        exact absurd (Option.some.inj h1).symm hne
      · simp [broadcastPlan, hs]
    · have hlen : l.length ≠ 0 := fun h => hl (List.length_eq_zero.mp h)
      have hb : broadcastPlan s rid = (false, l.filter (fun c => connOpen s c)) := by
        simp [broadcastPlan, hs, hlen]
      refine ⟨?_, ?_, ?_, ?_⟩
      · rw [hb]
        simp [hl]
      · intro l1 h1 _
        have he : l1 = l := (Option.some.inj h1).symm
        subst he
        rw [hb]
      · intro l1 c h1 _ hc
        have he : l1 = l := (Option.some.inj h1).symm
        subst he
        rw [hb]
        intro hmem
        exact hc (List.mem_filter.mp hmem).1
      · rw [hb]
        intro h
        simp at h

/-- Witness for C4 amended at `sC4`, discharging the non-empty-set
branch for subscriber set `[1]`. -/
theorem C4_broadcast_routing_witness :
    (broadcastPlan sC4 "B").2 = [1].filter (fun c => connOpen sC4 c) ∧
    ((broadcastPlan sC4 "B").1 = true ↔ (aget sC4.subs "B").getD [] = []) :=
  ⟨(C4_broadcast_routing sC4 "B").2.1 [1] (by decide) (by decide),
   (C4_broadcast_routing sC4 "B").1⟩

/-! ## C3: signature verification -/

/-- C3 counterexample: the claim says every signature mismatch — length
or content — yields 401, but in server.js / part_000 there is no length
guard: `crypto.timingSafeEqual` throws on buffers of unequal length and
the route's catch-all answers 500 `internal error`, not 401. -/
theorem C3_counterexample :
    (providedDigest "sha256=ab").length ≠ (hexDecode computedW.toList).length ∧
    serverCallbackAuthStatus "sha256=ab" computedW = some 500 ∧
    serverCallbackAuthStatus "sha256=ab" computedW ≠ some 401 := by
  decide

/-- C3 amended: in part_001, a well-formed `sha256=<hex>` header whose
decoded digest differs from the computed one is rejected 401 `invalid
signature` with no state mutation and no broadcast; when the lengths
differ the rejection happens without invoking the byte-wise
constant-time comparison.  In server.js / part_000, which lack the
length guard, an unequal-length digest instead makes `timingSafeEqual`
throw, producing a 500 response; equal-length content mismatches still
yield 401 there. -/
theorem C3_signature_length_guard (hdr computedHex secret now : String)
    (p : CallbackPayload) (s : ServerState)
    (hfmt : (headerParts hdr).length = 2 ∧
      (headerParts hdr).getD 0 [] = "sha256".toList)
    (hhd : hdr ≠ "")
    (hne : providedDigest hdr ≠ hexDecode computedHex.toList) :
    ((providedDigest hdr).length ≠ (hexDecode computedHex.toList).length →
       verifySigHeader hdr computedHex = (VerifyOutcome.invalidSignature, false)) ∧
    (verifySigHeader hdr computedHex).1 = VerifyOutcome.invalidSignature ∧
    callbacksFireworks (some hdr) computedHex secret p now s =
      (s, HttpResp.unauthorized "invalid signature", []) ∧
    ((providedDigest hdr).length ≠ (hexDecode computedHex.toList).length →
       serverCallbackAuthStatus hdr computedHex = some 500) := by
  obtain ⟨hlen2, hsha⟩ := hfmt
  have hfmtc : ¬((headerParts hdr).length ≠ 2 ∨
      (headerParts hdr).getD 0 [] ≠ "sha256".toList) := by
    push_neg
    exact ⟨hlen2, hsha⟩
  have hne2 : hexDecode ((headerParts hdr).getD 1 []) ≠
      hexDecode computedHex.toList := hne
  by_cases hl : (hexDecode ((headerParts hdr).getD 1 [])).length ≠
      (hexDecode computedHex.toList).length
  · have hv : verifySigHeader hdr computedHex =
        (VerifyOutcome.invalidSignature, false) := by
      unfold verifySigHeader
      rw [if_neg hfmtc, if_pos hl]
    have hvs : verifySigHeaderServer hdr computedHex = VerifyOutcomeS.threw := by
      unfold verifySigHeaderServer
      rw [if_neg hfmtc, if_pos hl]
    refine ⟨fun _ => hv, by rw [hv], ?_, fun _ => ?_⟩
    · simp [callbacksFireworks, truthyStr, hhd, hv]
    · simp [serverCallbackAuthStatus, hvs]
  · have hv : verifySigHeader hdr computedHex =
        (VerifyOutcome.invalidSignature, true) := by
      unfold verifySigHeader
      rw [if_neg hfmtc, if_neg hl, if_pos hne2]
    refine ⟨fun h => absurd h hl, by rw [hv], ?_, fun h => absurd h hl⟩
    simp [callbacksFireworks, truthyStr, hhd, hv]

/-- Witness for C3 amended: the header `sha256=ab` (a one-byte digest)
against a 64-character computed digest. -/
theorem C3_signature_length_guard_witness :
    ((providedDigest "sha256=ab").length ≠
        (hexDecode computedW.toList).length →
       verifySigHeader "sha256=ab" computedW =
         (VerifyOutcome.invalidSignature, false)) ∧
    (verifySigHeader "sha256=ab" computedW).1 = VerifyOutcome.invalidSignature ∧
    callbacksFireworks (some "sha256=ab") computedW "secret" pC1 "t1" emptyState =
      (emptyState, HttpResp.unauthorized "invalid signature", []) ∧
    ((providedDigest "sha256=ab").length ≠
        (hexDecode computedW.toList).length →
       serverCallbackAuthStatus "sha256=ab" computedW = some 500) :=
  C3_signature_length_guard "sha256=ab" computedW "secret" "t1" pC1 emptyState
    (by decide) (by decide) (by decide)

/-! ## C5: the mirrored-index invariant

Helper lemmas about the close handler's loop, then preservation of the
mirror under subscribe and close, and its violation by a timer
firing. -/

/-! ### Pointwise characterizations of the index predicates -/

theorem inSubsL_some {subs : List (String × List Nat)} {rid : String}
    {l : List Nat} (h : aget subs rid = some l) (c : Nat) :
    inSubsL subs rid c ↔ c ∈ l := by
  unfold inSubsL
  rw [h]

theorem inSubsL_none {subs : List (String × List Nat)} {rid : String}
    (h : aget subs rid = none) (c : Nat) :
    inSubsL subs rid c ↔ False := by
  unfold inSubsL
  rw [h]

theorem inSubsL_congr {subs1 subs2 : List (String × List Nat)} {rid : String}
    (h : aget subs1 rid = aget subs2 rid) (c : Nat) :
    inSubsL subs1 rid c ↔ inSubsL subs2 rid c := by
  unfold inSubsL
  rw [h]

theorem inMeta_some {s : ServerState} {c : Nat} {rs : List String}
    (h : aget s.meta c = some rs) (rid : String) :
    inMeta s c rid ↔ rid ∈ rs := by
  unfold inMeta
  rw [h]

theorem inMeta_none {s : ServerState} {c : Nat}
    (h : aget s.meta c = none) (rid : String) :
    inMeta s c rid ↔ False := by
  unfold inMeta
  rw [h]

theorem inMeta_congr {s1 s2 : ServerState} {c : Nat}
    (h : aget s1.meta c = aget s2.meta c) (rid : String) :
    inMeta s1 c rid ↔ inMeta s2 c rid := by
  unfold inMeta
  rw [h]

theorem mem_getD_iff_inSubsL (subs : List (String × List Nat)) (rid : String)
    (c : Nat) : c ∈ (aget subs rid).getD [] ↔ inSubsL subs rid c := by
  cases h : aget subs rid with
  | none => rw [inSubsL_none h c]; simp
  | some l => rw [inSubsL_some h c]; simp

/-! ### The close handler loop -/

theorem removeConnStep_of_none (c : Nat) (rid : String)
    (subs : List (String × List Nat)) (hg : aget subs rid = none) :
    removeConnStep c rid subs = subs := by
  simp [removeConnStep, hg]

theorem removeConnStep_of_some (c : Nat) (rid : String)
    (subs : List (String × List Nat)) (set1 : List Nat)
    (hg : aget subs rid = some set1) :
    removeConnStep c rid subs =
      if set1.filter (fun x => x ≠ c) = [] then aerase subs rid
      else aset subs rid (set1.filter (fun x => x ≠ c)) := by
  simp [removeConnStep, hg]

/-- `removeConnStep` does not change membership of any other connection. -/
theorem removeConnStep_other (c c2 : Nat) (hcc : c2 ≠ c) (rid r : String)
    (subs : List (String × List Nat)) :
    inSubsL (removeConnStep c rid subs) r c2 ↔ inSubsL subs r c2 := by
  cases hg : aget subs rid with
  | none => rw [removeConnStep_of_none c rid subs hg]
  | some set1 =>
    rw [removeConnStep_of_some c rid subs set1 hg]
    by_cases hf : set1.filter (fun x => x ≠ c) = []
    · rw [if_pos hf]
      by_cases hr : r = rid
      · subst hr
        rw [inSubsL_none (aget_aerase_self subs r) c2, inSubsL_some hg c2]
        constructor
        · intro h; exact h.elim
        · intro h
          have hmem : c2 ∈ set1.filter (fun x => x ≠ c) :=
            List.mem_filter.mpr ⟨h, by simpa using hcc⟩
          rw [hf] at hmem
          exact absurd hmem (List.not_mem_nil c2)
      · exact inSubsL_congr (aget_aerase_ne subs rid r hr) c2
    · rw [if_neg hf]
      by_cases hr : r = rid
      · subst hr
        rw [inSubsL_some (aget_aset_self subs r _) c2, inSubsL_some hg c2]
        constructor
        · intro h; exact (List.mem_filter.mp h).1
        · intro h; exact List.mem_filter.mpr ⟨h, by simpa using hcc⟩
      · exact inSubsL_congr (aget_aset_ne subs rid r _ hr) c2

/-- After `removeConnStep`, the removed connection is no longer in
`rid`'s set. -/
theorem removeConnStep_self (c : Nat) (rid : String)
    (subs : List (String × List Nat)) :
    ¬ inSubsL (removeConnStep c rid subs) rid c := by
  cases hg : aget subs rid with
  | none =>
    rw [removeConnStep_of_none c rid subs hg, inSubsL_none hg c]
    exact fun h => h
  | some set1 =>
    rw [removeConnStep_of_some c rid subs set1 hg]
    by_cases hf : set1.filter (fun x => x ≠ c) = []
    · rw [if_pos hf, inSubsL_none (aget_aerase_self subs rid) c]
      exact fun h => h
    · rw [if_neg hf, inSubsL_some (aget_aset_self subs rid _) c]
      intro h
      have h2 := (List.mem_filter.mp h).2
      simp at h2

/-- `removeConnStep` on `rid` leaves every other request id untouched. -/
theorem removeConnStep_ne (c c2 : Nat) (rid r : String) (hr : r ≠ rid)
    (subs : List (String × List Nat)) :
    inSubsL (removeConnStep c rid subs) r c2 ↔ inSubsL subs r c2 := by
  cases hg : aget subs rid with
  | none => rw [removeConnStep_of_none c rid subs hg]
  | some set1 =>
    rw [removeConnStep_of_some c rid subs set1 hg]
    by_cases hf : set1.filter (fun x => x ≠ c) = []
    · rw [if_pos hf]
      exact inSubsL_congr (aget_aerase_ne subs rid r hr) c2
    · rw [if_neg hf]
      exact inSubsL_congr (aget_aset_ne subs rid r _ hr) c2

/-- The close loop does not change membership of other connections. -/
theorem removeConnFrom_other (c c2 : Nat) (hcc : c2 ≠ c) :
    ∀ (rids : List String) (subs : List (String × List Nat)) (r : String),
      inSubsL (removeConnFrom c rids subs) r c2 ↔ inSubsL subs r c2 := by
  intro rids
  induction rids with
  | nil => intro subs r; exact Iff.rfl
  | cons rid1 rest ih =>
    intro subs r
    exact (ih (removeConnStep c rid1 subs) r).trans
      (removeConnStep_other c c2 hcc rid1 r subs)

/-- The close loop leaves ids outside the processed list untouched. -/
theorem removeConnFrom_not_mem (c : Nat) :
    ∀ (rids : List String) (subs : List (String × List Nat)) (r : String),
      r ∉ rids →
      (inSubsL (removeConnFrom c rids subs) r c ↔ inSubsL subs r c) := by
  intro rids
  induction rids with
  | nil => intro subs r _; exact Iff.rfl
  | cons rid1 rest ih =>
    intro subs r hr
    have hr1 : r ≠ rid1 := fun h => hr (h ▸ List.mem_cons_self rid1 rest)
    have hr2 : r ∉ rest := fun h => hr (List.mem_cons_of_mem rid1 h)
    exact (ih (removeConnStep c rid1 subs) r hr2).trans
      (removeConnStep_ne c c rid1 r hr1 subs)

/-- After the close loop, the closed connection is in no processed
id's set. -/
theorem removeConnFrom_self (c : Nat) :
    ∀ (rids : List String) (subs : List (String × List Nat)) (r : String),
      r ∈ rids → ¬ inSubsL (removeConnFrom c rids subs) r c := by
  intro rids
  induction rids with
  | nil => intro subs r hmem; exact absurd hmem (List.not_mem_nil r)
  | cons rid1 rest ih =>
    intro subs r hmem
    by_cases hrest : r ∈ rest
    · exact ih (removeConnStep c rid1 subs) r hrest
    · have hr1 : r = rid1 := by
        rcases List.mem_cons.mp hmem with h | h
        · exact h
        · exact absurd h hrest
      subst hr1
      intro h
      exact removeConnStep_self c r subs
        ((removeConnFrom_not_mem c rest (removeConnStep c r subs) r hrest).mp h)

/-! ### Mirror preservation -/

/-- `wsClose` preserves the mirror invariant. -/
theorem wsClose_mirrored (s : ServerState) (c : Nat) (hm : mirrored s) :
    mirrored (wsClose c s) := by
  have hmeta : (wsClose c s).meta = aerase s.meta c := rfl
  intro rid c2
  show inSubsL (wsClose c s).subs rid c2 ↔ inMeta (wsClose c s) c2 rid
  cases hmc : aget s.meta c with
  | none =>
    have hsubs : (wsClose c s).subs = s.subs := by
      simp [wsClose, hmc]
    rw [hsubs]
    by_cases hcc : c2 = c
    · have hm2 : aget (wsClose c s).meta c2 = none := by
        rw [hmeta, hcc]
        exact aget_aerase_self s.meta c
      have hmc2 : aget s.meta c2 = none := by
        rw [hcc]
        exact hmc
      rw [inMeta_none hm2 rid]
      exact (hm rid c2).trans (inMeta_none hmc2 rid)
    · have hm2 : aget (wsClose c s).meta c2 = aget s.meta c2 := by
        rw [hmeta]
        exact aget_aerase_ne s.meta c c2 hcc
      rw [inMeta_congr hm2 rid]
      exact hm rid c2
  | some rs =>
    have hsubs : (wsClose c s).subs = removeConnFrom c rs s.subs := by
      simp [wsClose, hmc]
    rw [hsubs]
    by_cases hcc : c2 = c
    · have hm2 : aget (wsClose c s).meta c2 = none := by
        rw [hmeta, hcc]
        exact aget_aerase_self s.meta c
      rw [inMeta_none hm2 rid, iff_false, hcc]
      by_cases hin : rid ∈ rs
      · exact removeConnFrom_self c rs s.subs rid hin
      · intro h
        have h2 := (removeConnFrom_not_mem c rs s.subs rid hin).mp h
        have h3 := (hm rid c).mp h2
        exact hin ((inMeta_some hmc rid).mp h3)
    · have hm2 : aget (wsClose c s).meta c2 = aget s.meta c2 := by
        rw [hmeta]
        exact aget_aerase_ne s.meta c c2 hcc
      rw [inMeta_congr hm2 rid, removeConnFrom_other c c2 hcc rs s.subs rid]
      exact hm rid c2

/-- `subscribeMsg` preserves the mirror invariant for a connection that
has a meta entry (every connected client does). -/
theorem subscribeMsg_mirrored (s : ServerState) (c : Nat) (rid0 : Option String)
    (hm : mirrored s) (hc : (aget s.meta c).isSome) :
    mirrored (subscribeMsg c rid0 s).1 := by
  cases hr : truthyStr rid0 with
  | none =>
    have h1 : (subscribeMsg c rid0 s).1 = s := by
      simp [subscribeMsg, hr]
    rw [h1]
    exact hm
  | some rid =>
    obtain ⟨rs, hrs⟩ := Option.isSome_iff_exists.mp hc
    have hsubs1 : (subscribeMsg c rid0 s).1.subs =
        aset s.subs rid (sinsert c ((aget s.subs rid).getD [])) := by
      simp [subscribeMsg, hr, hrs]
    have hmeta1 : (subscribeMsg c rid0 s).1.meta =
        aset s.meta c (sinsert rid rs) := by
      simp [subscribeMsg, hr, hrs]
    intro r c2
    show inSubsL (subscribeMsg c rid0 s).1.subs r c2 ↔
      inMeta (subscribeMsg c rid0 s).1 c2 r
    by_cases hrr : r = rid <;> by_cases hcc : c2 = c
    · subst hrr; subst hcc
      have hA : aget (subscribeMsg c2 rid0 s).1.subs r =
          some (sinsert c2 ((aget s.subs r).getD [])) := by
        rw [hsubs1]
        exact aget_aset_self _ _ _
      have hB : aget (subscribeMsg c2 rid0 s).1.meta c2 =
          some (sinsert r rs) := by
        rw [hmeta1]
        exact aget_aset_self _ _ _
      rw [inSubsL_some hA c2, inMeta_some hB r]
      constructor
      · intro _
        exact (mem_sinsert r r rs).mpr (Or.inl rfl)
      · intro _
        exact (mem_sinsert c2 c2 _).mpr (Or.inl rfl)
    · subst hrr
      have hA : aget (subscribeMsg c rid0 s).1.subs r =
          some (sinsert c ((aget s.subs r).getD [])) := by
        rw [hsubs1]
        exact aget_aset_self _ _ _
      have hB : aget (subscribeMsg c rid0 s).1.meta c2 = aget s.meta c2 := by
        rw [hmeta1]
        exact aget_aset_ne s.meta c c2 _ hcc
      have step1 : c2 ∈ sinsert c ((aget s.subs r).getD []) ↔
          c2 ∈ (aget s.subs r).getD [] := by
        rw [mem_sinsert]
        constructor
        · intro h
          rcases h with h | h
          · exact absurd h hcc
          · exact h
        · exact Or.inr
      calc inSubsL (subscribeMsg c rid0 s).1.subs r c2
          ↔ c2 ∈ sinsert c ((aget s.subs r).getD []) := inSubsL_some hA c2
        _ ↔ c2 ∈ (aget s.subs r).getD [] := step1
        _ ↔ inSubsL s.subs r c2 := mem_getD_iff_inSubsL s.subs r c2
        _ ↔ inMeta s c2 r := hm r c2
        _ ↔ inMeta (subscribeMsg c rid0 s).1 c2 r := (inMeta_congr hB r).symm
    · subst hcc
      have hA : aget (subscribeMsg c2 rid0 s).1.subs r = aget s.subs r := by
        rw [hsubs1]
        exact aget_aset_ne s.subs rid r _ hrr
      have hB : aget (subscribeMsg c2 rid0 s).1.meta c2 =
          some (sinsert rid rs) := by
        rw [hmeta1]
        exact aget_aset_self _ _ _
      have step2 : r ∈ sinsert rid rs ↔ r ∈ rs := by
        rw [mem_sinsert]
        constructor
        · intro h
          rcases h with h | h
          · exact absurd h hrr
          · exact h
        · exact Or.inr
      calc inSubsL (subscribeMsg c2 rid0 s).1.subs r c2
          ↔ inSubsL s.subs r c2 := inSubsL_congr hA c2
        _ ↔ inMeta s c2 r := hm r c2
        _ ↔ r ∈ rs := inMeta_some hrs r
        _ ↔ r ∈ sinsert rid rs := step2.symm
        _ ↔ inMeta (subscribeMsg c2 rid0 s).1 c2 r := (inMeta_some hB r).symm
    · have hA : aget (subscribeMsg c rid0 s).1.subs r = aget s.subs r := by
        rw [hsubs1]
        exact aget_aset_ne s.subs rid r _ hrr
      have hB : aget (subscribeMsg c rid0 s).1.meta c2 = aget s.meta c2 := by
        rw [hmeta1]
        exact aget_aset_ne s.meta c c2 _ hcc
      rw [inSubsL_congr hA c2, inMeta_congr hB r]
      exact hm r c2

/-- A state whose two indexes are a single matching pair is mirrored. -/
theorem mirrored_pair (s : ServerState) (rid1 : String) (c1 : Nat)
    (hs : s.subs = [(rid1, [c1])]) (hmm : s.meta = [(c1, [rid1])]) :
    mirrored s := by
  intro rid c
  by_cases hr : rid1 = rid <;> by_cases hc : c1 = c
  · have hA : aget s.subs rid = some [c1] := by rw [hs]; simp [aget, hr]
    have hB : aget s.meta c = some [rid1] := by rw [hmm]; simp [aget, hc]
    rw [show inSubs s rid c ↔ c ∈ [c1] from inSubsL_some hA c, inMeta_some hB rid]
    simp [hr, hc]
  · have hA : aget s.subs rid = some [c1] := by rw [hs]; simp [aget, hr]
    have hB : aget s.meta c = none := by rw [hmm]; simp [aget, hc]
    rw [show inSubs s rid c ↔ c ∈ [c1] from inSubsL_some hA c, inMeta_none hB rid]
    simp [List.mem_singleton, Ne.symm hc]
  · have hA : aget s.subs rid = none := by rw [hs]; simp [aget, hr]
    have hB : aget s.meta c = some [rid1] := by rw [hmm]; simp [aget, hc]
    rw [show inSubs s rid c ↔ False from inSubsL_none hA c, inMeta_some hB rid]
    simp [List.mem_singleton, Ne.symm hr]
  · have hA : aget s.subs rid = none := by rw [hs]; simp [aget, hr]
    have hB : aget s.meta c = none := by rw [hmm]; simp [aget, hc]
    rw [show inSubs s rid c ↔ False from inSubsL_none hA c, inMeta_none hB rid]

/-- A state with empty subscriber index and one empty meta entry is
mirrored. -/
theorem mirrored_empty_meta (s : ServerState) (c1 : Nat)
    (hs : s.subs = []) (hmm : s.meta = [(c1, [])]) : mirrored s := by
  intro rid c
  have hA : aget s.subs rid = none := by rw [hs]; rfl
  rw [show inSubs s rid c ↔ False from inSubsL_none hA c]
  by_cases hc : c1 = c
  · have hB : aget s.meta c = some [] := by rw [hmm]; simp [aget, hc]
    rw [inMeta_some hB rid]
    simp
  · have hB : aget s.meta c = none := by rw [hmm]; simp [aget, hc]
    rw [inMeta_none hB rid]

/-- C5 counterexample: the claim includes timeout firing among the
operations that keep the two indexes mirrored; but part_001's timer body
does `subs.delete(request_id)` without touching the meta sets, so after
timer 1 fires on `sC5`, connection 1 still lists `r1` in its meta set
while `r1` has no subscriber entry at all. -/
theorem C5_counterexample :
    mirrored sC5 ∧ ¬ mirrored (fireTimeout 1 "t2" sC5).1 := by
  constructor
  · exact mirrored_pair sC5 "r1" 1 rfl rfl
  · intro h
    have hmeta : aget (fireTimeout 1 "t2" sC5).1.meta 1 = some ["r1"] := by
      decide
    have h1 : inMeta (fireTimeout 1 "t2" sC5).1 1 "r1" :=
      (inMeta_some hmeta "r1").mpr (List.mem_singleton.mpr rfl)
    have hsubs : aget (fireTimeout 1 "t2" sC5).1.subs "r1" = none := by
      decide
    exact (inSubsL_none hsubs 1).mp ((h "r1" 1).mpr h1)

/-- C5 amended: the two subscription indexes stay mirrored across
subscribe and connection-close operations; timeout firing, however,
breaks the mirror (part_001's timer body deletes only the `subs` entry;
server.js's `terminateClientsForRequest` likewise deletes only the
request-to-connections side, while part_000's variant also cleans the
meta side). -/
theorem C5_mirror_preserved (s : ServerState) (c : Nat) (rid0 : Option String)
    (hm : mirrored s) (hc : (aget s.meta c).isSome) :
    mirrored (subscribeMsg c rid0 s).1 ∧ mirrored (wsClose c s) :=
  ⟨subscribeMsg_mirrored s c rid0 hm hc, wsClose_mirrored s c hm⟩

/-- Witness for C5 amended: connection 1 of `sW5` subscribes to `r1`,
and separately closes. -/
theorem C5_mirror_preserved_witness :
    mirrored (subscribeMsg 1 (some "r1") sW5).1 ∧ mirrored (wsClose 1 sW5) :=
  C5_mirror_preserved sW5 1 (some "r1") (mirrored_empty_meta sW5 1 rfl rfl)
    (by decide)


end ChatBackend
